import Mathlib

/-!
Shallow embedding of `password_generator_v2.py` (class `PasswordGenerator`).

Randomness (`secrets.choice`, `secrets.randbelow`, `SystemRandom().shuffle`)
is modelled by explicit oracles: each call to `secrets.choice(seq)` consumes a
natural number `r` from an oracle stream and returns `seq[r % len(seq)]`
(every element is reachable, and every run of the Python code corresponds to
some oracle); the final shuffle is an arbitrary function assumed to permute
its input, which is exactly the contract of a random shuffle.  Character
predicates (`str.isupper` etc.) are modelled on ASCII, the alphabet the
program draws from.
-/

namespace PG

/-- Python string.ascii_uppercase (the field self.uppercase). -/
def uppercase : List Char := "ABCDEFGHIJKLMNOPQRSTUVWXYZ".toList

/-- Python string.ascii_lowercase (the field self.lowercase). -/
def lowercase : List Char := "abcdefghijklmnopqrstuvwxyz".toList

/-- Python string.digits (the field self.digits). -/
def digits : List Char := "0123456789".toList

/-- Python string.punctuation (the field self.symbols). -/
def symbols : List Char := "!\"#$%&\x27()*+,-./:;<=>?@[\\]^_\x60\x7b|\x7d~".toList

/-- The field self.ambiguous, the seven characters il1Lo0O. -/
def ambiguous : List Char := "il1Lo0O".toList

/-- The join-comprehension that drops ambiguous characters, used by each
category block of `generate`. -/
def removeAmbiguous (l : List Char) : List Char :=
  l.filter (fun c => !ambiguous.contains c)

/-- Models secrets.choice(l): the oracle supplies `r`, the result is the
element at index `r % len(l)`
(a member of `l` whenever `l` is non-empty; the Python call would raise on an
empty sequence, never reached here). -/
def pick (r : Nat) (l : List Char) : Char :=
  l.getD (r % l.length) ' '

/-- The keyword arguments of `PasswordGenerator.generate`.  `length` is a
Python `int`, hence `Int` (it may be zero or negative). -/
structure Config where
  length : Int
  use_upper : Bool
  use_lower : Bool
  use_digits : Bool
  use_symbols : Bool
  exclude_ambiguous : Bool

/-- The pool `chars` built by the four category blocks of `generate`
(lines 56–83).  In the `use_upper` block the source filters the whole of
`chars`, which at that point is exactly `uppercase`; the lower and digit
blocks filter their own sets before appending; the symbol block appends
`self.symbols` unfiltered. -/
def effective_pool (cfg : Config) : List Char :=
  (if cfg.use_upper then
    (if cfg.exclude_ambiguous then removeAmbiguous uppercase else uppercase)
   else [])
  ++ (if cfg.use_lower then
    (if cfg.exclude_ambiguous then removeAmbiguous lowercase else lowercase)
   else [])
  ++ (if cfg.use_digits then
    (if cfg.exclude_ambiguous then removeAmbiguous digits else digits)
   else [])
  ++ (if cfg.use_symbols then symbols else [])

/-- The list `required` built by the four category blocks of `generate`:
one `secrets.choice` per enabled category, the upper/lower/digit draws from
the ambiguity-filtered set when `exclude_ambiguous`, the symbol draw from the
full `self.symbols`. -/
def required_chars (cfg : Config) (rup rlo rdi rsy : Nat) : List Char :=
  (if cfg.use_upper then
    [pick rup (if cfg.exclude_ambiguous then removeAmbiguous uppercase else uppercase)]
   else [])
  ++ (if cfg.use_lower then
    [pick rlo (if cfg.exclude_ambiguous then removeAmbiguous lowercase else lowercase)]
   else [])
  ++ (if cfg.use_digits then
    [pick rdi (if cfg.exclude_ambiguous then removeAmbiguous digits else digits)]
   else [])
  ++ (if cfg.use_symbols then [pick rsy symbols] else [])

/-- Lines 88–94 of `generate`: clamp `length` up to `len(required)`, then
`password = required + [secrets.choice(chars) for _ in range(length - len(required))]`.
`fill` is the oracle stream feeding the filler draws. -/
def password_list (cfg : Config) (rup rlo rdi rsy : Nat) (fill : Nat → Nat) : List Char :=
  let required := required_chars cfg rup rlo rdi rsy
  let len : Int := if cfg.length < (required.length : Int) then (required.length : Int) else cfg.length
  required ++ (List.range (len - (required.length : Int)).toNat).map
    (fun i => pick (fill i) (effective_pool cfg))

/-- Function PasswordGenerator.generate (lines 40–99).  `shuffle` models
`secrets.SystemRandom().shuffle`; theorems assume it permutes its input.
The `ValueError` of line 86 (the ConfigError of the spec) is the error case. -/
def generate (cfg : Config) (rup rlo rdi rsy : Nat) (fill : Nat → Nat)
    (shuffle : List Char → List Char) : Except String (List Char) :=
  if (effective_pool cfg).isEmpty then
    Except.error "At least one character type must be selected"
  else
    Except.ok (shuffle (password_list cfg rup rlo rdi rsy fill))

/-- Function PasswordGenerator.generate_multiple (lines 101–103): one independent
`generate` call per index, each with its own oracle draws. -/
def generate_multiple (count : Nat) (cfg : Config) (rup rlo rdi rsy : Nat → Nat)
    (fill : Nat → Nat → Nat) (shuffle : Nat → List Char → List Char) :
    List (Except String (List Char)) :=
  (List.range count).map (fun i => generate cfg (rup i) (rlo i) (rdi i) (rsy i) (fill i) (shuffle i))

/-- Number of enabled categories: `len(required)` in `generate`. -/
def numEnabled (cfg : Config) : Nat :=
  (if cfg.use_upper then 1 else 0) + (if cfg.use_lower then 1 else 0)
  + (if cfg.use_digits then 1 else 0) + (if cfg.use_symbols then 1 else 0)

/-- The effective set of a category: its base set minus the ambiguous characters
when `exclude_ambiguous` is on (spec §3/§4.1 glossary wording, which also
matches the sets the code draws its required characters from). -/
def effectiveSet (base : List Char) (excl : Bool) : List Char :=
  if excl then removeAmbiguous base else base

/-- Spec §8 length invariant: the length of the password is
`max(requested length, number of enabled categories)`. -/
def lengthInvariant (cfg : Config) (pw : List Char) : Prop :=
  (pw.length : Int) = max cfg.length (numEnabled cfg)

/-- Spec §8 inclusion invariant: at least one character from the effective
set of each enabled category is present. -/
def inclusionInvariant (cfg : Config) (pw : List Char) : Prop :=
  (cfg.use_upper = true → ∃ c, c ∈ pw ∧ c ∈ effectiveSet uppercase cfg.exclude_ambiguous)
  ∧ (cfg.use_lower = true → ∃ c, c ∈ pw ∧ c ∈ effectiveSet lowercase cfg.exclude_ambiguous)
  ∧ (cfg.use_digits = true → ∃ c, c ∈ pw ∧ c ∈ effectiveSet digits cfg.exclude_ambiguous)
  ∧ (cfg.use_symbols = true → ∃ c, c ∈ pw ∧ c ∈ effectiveSet symbols cfg.exclude_ambiguous)

/-- No character of `pw` is ambiguous. -/
def hasNoAmbiguous (pw : List Char) : Prop :=
  ∀ c, c ∈ pw → c ∉ ambiguous

/-- At least one category is enabled. -/
def someEnabled (cfg : Config) : Prop :=
  cfg.use_upper = true ∨ cfg.use_lower = true ∨ cfg.use_digits = true ∨ cfg.use_symbols = true

/-- Function PasswordGenerator.check_strength (lines 141–184): each test bumps
`score` when it passes and appends its feedback string when it fails (the
source does both in one `if`/`else`; here the two updates of the same test
are written as two `if`s on the same condition), final score `min(score, 5)`. -/
def check_strength (password : List Char) : Nat × List String :=
  let score : Nat := 0
  let feedback : List String := []
  let score := if password.length ≥ 8 then score + 1 else score
  let feedback := if password.length ≥ 8 then feedback
                  else feedback ++ ["Too short (min 8)"]
  let score := if password.length ≥ 12 then score + 1 else score
  let score := if password.length ≥ 16 then score + 1 else score
  let score := if password.any (fun c => c.isUpper) then score + 1 else score
  let feedback := if password.any (fun c => c.isUpper) then feedback
                  else feedback ++ ["Add uppercase letters"]
  let score := if password.any (fun c => c.isLower) then score + 1 else score
  let feedback := if password.any (fun c => c.isLower) then feedback
                  else feedback ++ ["Add lowercase letters"]
  let score := if password.any (fun c => c.isDigit) then score + 1 else score
  let feedback := if password.any (fun c => c.isDigit) then feedback
                  else feedback ++ ["Add numbers"]
  let score := if password.any (fun c => symbols.contains c) then score + 1 else score
  let feedback := if password.any (fun c => symbols.contains c) then feedback
                  else feedback ++ ["Add symbols"]
  (min score 5, feedback)

/-- The raw sum of the seven independent strength tests (the table of spec §4.2),
before the cap at 5. -/
def rawSum (p : List Char) : Nat :=
  (if p.length ≥ 8 then 1 else 0) + (if p.length ≥ 12 then 1 else 0)
  + (if p.length ≥ 16 then 1 else 0)
  + (if p.any (fun c => c.isUpper) then 1 else 0)
  + (if p.any (fun c => c.isLower) then 1 else 0)
  + (if p.any (fun c => c.isDigit) then 1 else 0)
  + (if p.any (fun c => symbols.contains c) then 1 else 0)

/-- The static word list of `generate_memorable` (lines 119–127). -/
def word_list : List String :=
  ["alpha", "bravo", "charlie", "delta", "echo", "foxtrot",
   "golf", "hotel", "india", "juliet", "kilo", "lima",
   "mike", "november", "oscar", "papa", "quebec", "romeo",
   "sierra", "tango", "uniform", "victor", "whiskey", "xray",
   "yankee", "zulu", "coffee", "python", "tiger", "ocean",
   "mountain", "river", "forest", "desert", "cloud", "thunder",
   "lightning", "rainbow", "sunset", "sunrise", "winter", "summer"]

/-- Models secrets.choice on the word list, with the same oracle convention
as `pick`. -/
def pickWord (r : Nat) (l : List String) : String :=
  l.getD (r % l.length) ""

/-- Python `str.capitalize()`: first character upper-cased, the rest
lower-cased (ASCII model). -/
def pyCapitalize (s : String) : String :=
  match s.toList with
  | [] => ""
  | c :: rest => String.mk (c.toUpper :: rest.map Char.toLower)

/-- Function PasswordGenerator.generate_memorable (lines 105–139).  `wr` is the
oracle stream for the word draws; `nr` the oracle for `secrets.randbelow(100)`,
modelled as `nr % 100`. -/
def generate_memorable (words : Nat) (separator : String) (capitalize : Bool)
    (add_number : Bool) (wr : Nat → Nat) (nr : Nat) : String :=
  let selected := (List.range words).map (fun i => pickWord (wr i) word_list)
  let selected := if capitalize then selected.map pyCapitalize else selected
  let passphrase := String.intercalate separator selected
  if add_number then passphrase ++ toString (nr % 100) else passphrase

/-- Every entry of a `generate_multiple` result is a successful `generate`
result satisfying the length and inclusion invariants. -/
def allInvariants (cfg : Config) (res : List (Except String (List Char))) : Prop :=
  ∀ i, i < res.length → ∃ pw, res.getD i (Except.error "") = Except.ok pw
    ∧ lengthInvariant cfg pw ∧ inclusionInvariant cfg pw

/-- A concrete configuration used by the witnesses: the Python defaults. -/
def cfg0 : Config := ⟨16, true, true, true, true, true⟩

/-- The concrete password produced from `cfg0` with the all-zero oracle and
the identity shuffle. -/
def pw0 : List Char :=
  match generate cfg0 0 0 0 0 (fun _ => 0) id with
  | Except.ok l => l
  | Except.error _ => []

/-- A concrete configuration with a negative requested length. -/
def cfg10 : Config := ⟨-3, true, true, true, true, true⟩

/-! Helper lemmas. -/

lemma getD_mod_mem {α : Type} (r : Nat) (l : List α) (d : α) (h : l ≠ []) :
    l.getD (r % l.length) d ∈ l := by
  have hlt : r % l.length < l.length := Nat.mod_lt _ (List.length_pos.mpr h)
  rw [List.getD_eq_getElem?_getD, List.getElem?_eq_getElem hlt]
  exact List.getElem_mem hlt

lemma pick_mem (r : Nat) (l : List Char) (h : l ≠ []) : pick r l ∈ l :=
  getD_mod_mem r l _ h

lemma pickWord_mem (r : Nat) (l : List String) (h : l ≠ []) : pickWord r l ∈ l :=
  getD_mod_mem r l _ h

/-- The capped score of a chain of seven conditional increments is the capped
sum of the seven indicators. -/
lemma score_chain (c1 c2 c3 c4 c5 c6 c7 : Prop)
    [Decidable c1] [Decidable c2] [Decidable c3] [Decidable c4]
    [Decidable c5] [Decidable c6] [Decidable c7] :
    (let s0 : Nat := 0
     let s1 := if c1 then s0 + 1 else s0
     let s2 := if c2 then s1 + 1 else s1
     let s3 := if c3 then s2 + 1 else s2
     let s4 := if c4 then s3 + 1 else s3
     let s5 := if c5 then s4 + 1 else s4
     let s6 := if c6 then s5 + 1 else s5
     let s7 := if c7 then s6 + 1 else s6
     min s7 5)
    = min ((if c1 then 1 else 0) + (if c2 then 1 else 0) + (if c3 then 1 else 0)
        + (if c4 then 1 else 0) + (if c5 then 1 else 0) + (if c6 then 1 else 0)
        + (if c7 then 1 else 0)) 5 := by
  by_cases h1 : c1 <;> by_cases h2 : c2 <;> by_cases h3 : c3 <;> by_cases h4 : c4 <;>
  by_cases h5 : c5 <;> by_cases h6 : c6 <;> by_cases h7 : c7 <;>
  simp [h1, h2, h3, h4, h5, h6, h7]

lemma upperEff_ne (ex : Bool) :
    (if ex then removeAmbiguous uppercase else uppercase) ≠ [] := by
  cases ex <;> decide

lemma lowerEff_ne (ex : Bool) :
    (if ex then removeAmbiguous lowercase else lowercase) ≠ [] := by
  cases ex <;> decide

lemma digitsEff_ne (ex : Bool) :
    (if ex then removeAmbiguous digits else digits) ≠ [] := by
  cases ex <;> decide

lemma symbols_ne : symbols ≠ [] := by decide

lemma required_length (cfg : Config) (rup rlo rdi rsy : Nat) :
    (required_chars cfg rup rlo rdi rsy).length = numEnabled cfg := by
  rcases cfg with ⟨L, u, lo, di, sy, ex⟩
  cases u <;> cases lo <;> cases di <;> cases sy <;>
    simp [required_chars, numEnabled]

lemma pool_ne {cfg : Config} (h : someEnabled cfg) : effective_pool cfg ≠ [] := by
  intro hemp
  rw [effective_pool] at hemp
  simp only [List.append_eq_nil] at hemp
  obtain ⟨⟨⟨h1, h2⟩, h3⟩, h4⟩ := hemp
  rcases h with h | h | h | h
  · simp only [h, if_true] at h1
    exact upperEff_ne _ h1
  · simp only [h, if_true] at h2
    exact lowerEff_ne _ h2
  · simp only [h, if_true] at h3
    exact digitsEff_ne _ h3
  · simp only [h, if_true] at h4
    exact symbols_ne h4

lemma password_list_length (cfg : Config) (rup rlo rdi rsy : Nat) (fill : Nat → Nat) :
    ((password_list cfg rup rlo rdi rsy fill).length : Int)
      = max cfg.length (numEnabled cfg) := by
  simp only [password_list, List.length_append, List.length_map, List.length_range,
    required_length]
  split <;> omega

lemma generate_ok {cfg : Config} (h : someEnabled cfg) (rup rlo rdi rsy : Nat)
    (fill : Nat → Nat) (shuffle : List Char → List Char) :
    generate cfg rup rlo rdi rsy fill shuffle
      = Except.ok (shuffle (password_list cfg rup rlo rdi rsy fill)) := by
  have hne : ¬ ((effective_pool cfg).isEmpty = true) := by
    simpa [List.isEmpty_iff] using pool_ne h
  rw [generate, if_neg hne]

lemma pw_perm {cfg : Config} {rup rlo rdi rsy : Nat} {fill : Nat → Nat}
    {shuffle : List Char → List Char} {pw : List Char}
    (hperm : ∀ l, List.Perm (shuffle l) l) (h : someEnabled cfg)
    (hok : generate cfg rup rlo rdi rsy fill shuffle = Except.ok pw) :
    List.Perm pw (password_list cfg rup rlo rdi rsy fill) := by
  have hg := generate_ok h rup rlo rdi rsy fill shuffle
  rw [hok] at hg
  rw [Except.ok.inj hg]
  exact hperm _

lemma mem_password_of_required {cfg : Config} {rup rlo rdi rsy : Nat}
    {fill : Nat → Nat} {c : Char} (hc : c ∈ required_chars cfg rup rlo rdi rsy) :
    c ∈ password_list cfg rup rlo rdi rsy fill := by
  simp only [password_list]
  exact List.mem_append_left _ hc

lemma upper_pick_mem_required {cfg : Config} (hu : cfg.use_upper = true)
    (rup rlo rdi rsy : Nat) :
    pick rup (if cfg.exclude_ambiguous then removeAmbiguous uppercase else uppercase)
      ∈ required_chars cfg rup rlo rdi rsy := by
  simp [required_chars, hu]

lemma lower_pick_mem_required {cfg : Config} (hl : cfg.use_lower = true)
    (rup rlo rdi rsy : Nat) :
    pick rlo (if cfg.exclude_ambiguous then removeAmbiguous lowercase else lowercase)
      ∈ required_chars cfg rup rlo rdi rsy := by
  simp [required_chars, hl]

lemma digit_pick_mem_required {cfg : Config} (hd : cfg.use_digits = true)
    (rup rlo rdi rsy : Nat) :
    pick rdi (if cfg.exclude_ambiguous then removeAmbiguous digits else digits)
      ∈ required_chars cfg rup rlo rdi rsy := by
  simp [required_chars, hd]

lemma symbol_pick_mem_required {cfg : Config} (hs : cfg.use_symbols = true)
    (rup rlo rdi rsy : Nat) :
    pick rsy symbols ∈ required_chars cfg rup rlo rdi rsy := by
  simp [required_chars, hs]

lemma effectiveSet_symbols (b : Bool) : effectiveSet symbols b = symbols := by
  cases b <;> rfl

lemma removeAmbiguous_not_mem {c : Char} {l : List Char}
    (hc : c ∈ removeAmbiguous l) : c ∉ ambiguous := by
  simp only [removeAmbiguous, List.mem_filter] at hc
  simpa using hc.2

lemma symbols_no_ambiguous : ∀ c, c ∈ symbols → c ∉ ambiguous := by decide

lemma required_no_ambiguous {cfg : Config} (hexcl : cfg.exclude_ambiguous = true)
    (rup rlo rdi rsy : Nat) :
    ∀ c, c ∈ required_chars cfg rup rlo rdi rsy → c ∉ ambiguous := by
  intro c hc
  simp only [required_chars, hexcl, if_true, List.mem_append, List.mem_ite_nil_right,
    List.mem_singleton] at hc
  rcases hc with ((⟨_, hA⟩ | ⟨_, hB⟩) | ⟨_, hC⟩) | ⟨_, hD⟩
  · exact hA ▸ removeAmbiguous_not_mem (pick_mem _ _ (by decide))
  · exact hB ▸ removeAmbiguous_not_mem (pick_mem _ _ (by decide))
  · exact hC ▸ removeAmbiguous_not_mem (pick_mem _ _ (by decide))
  · exact hD ▸ symbols_no_ambiguous _ (pick_mem _ _ symbols_ne)

lemma pool_no_ambiguous {cfg : Config} (hexcl : cfg.exclude_ambiguous = true) :
    ∀ c, c ∈ effective_pool cfg → c ∉ ambiguous := by
  intro c hc
  simp only [effective_pool, hexcl, if_true, List.mem_append,
    List.mem_ite_nil_right] at hc
  rcases hc with ((⟨_, hA⟩ | ⟨_, hB⟩) | ⟨_, hC⟩) | ⟨_, hD⟩
  · exact removeAmbiguous_not_mem hA
  · exact removeAmbiguous_not_mem hB
  · exact removeAmbiguous_not_mem hC
  · exact symbols_no_ambiguous _ hD

lemma mem_password_list {cfg : Config} {rup rlo rdi rsy : Nat} {fill : Nat → Nat}
    {c : Char} (hpool : effective_pool cfg ≠ [])
    (hc : c ∈ password_list cfg rup rlo rdi rsy fill) :
    c ∈ required_chars cfg rup rlo rdi rsy ∨ c ∈ effective_pool cfg := by
  simp only [password_list, List.mem_append, List.mem_map, List.mem_range] at hc
  rcases hc with hc | ⟨i, _, hi⟩
  · exact Or.inl hc
  · exact Or.inr (hi ▸ pick_mem _ _ hpool)

lemma length_core {cfg : Config} {rup rlo rdi rsy : Nat} {fill : Nat → Nat}
    {shuffle : List Char → List Char} {pw : List Char}
    (hperm : ∀ l, List.Perm (shuffle l) l) (henabled : someEnabled cfg)
    (hok : generate cfg rup rlo rdi rsy fill shuffle = Except.ok pw) :
    lengthInvariant cfg pw := by
  have hp := pw_perm hperm henabled hok
  rw [lengthInvariant, hp.length_eq]
  exact password_list_length cfg rup rlo rdi rsy fill

lemma inclusion_core {cfg : Config} {rup rlo rdi rsy : Nat} {fill : Nat → Nat}
    {shuffle : List Char → List Char} {pw : List Char}
    (hperm : ∀ l, List.Perm (shuffle l) l) (henabled : someEnabled cfg)
    (hok : generate cfg rup rlo rdi rsy fill shuffle = Except.ok pw) :
    inclusionInvariant cfg pw := by
  have hp := pw_perm hperm henabled hok
  refine ⟨fun hu => ?_, fun hl => ?_, fun hd => ?_, fun hs => ?_⟩
  · exact ⟨pick rup _,
      hp.mem_iff.mpr (mem_password_of_required (upper_pick_mem_required hu rup rlo rdi rsy)),
      pick_mem _ _ (upperEff_ne _)⟩
  · exact ⟨pick rlo _,
      hp.mem_iff.mpr (mem_password_of_required (lower_pick_mem_required hl rup rlo rdi rsy)),
      pick_mem _ _ (lowerEff_ne _)⟩
  · exact ⟨pick rdi _,
      hp.mem_iff.mpr (mem_password_of_required (digit_pick_mem_required hd rup rlo rdi rsy)),
      pick_mem _ _ (digitsEff_ne _)⟩
  · refine ⟨pick rsy symbols,
      hp.mem_iff.mpr (mem_password_of_required (symbol_pick_mem_required hs rup rlo rdi rsy)), ?_⟩
    rw [effectiveSet_symbols]
    exact pick_mem _ _ symbols_ne

lemma ambiguous_core {cfg : Config} {rup rlo rdi rsy : Nat} {fill : Nat → Nat}
    {shuffle : List Char → List Char} {pw : List Char}
    (hperm : ∀ l, List.Perm (shuffle l) l) (henabled : someEnabled cfg)
    (hexcl : cfg.exclude_ambiguous = true)
    (hok : generate cfg rup rlo rdi rsy fill shuffle = Except.ok pw) :
    hasNoAmbiguous pw := by
  have hp := pw_perm hperm henabled hok
  intro c hcpw
  rcases mem_password_list (pool_ne henabled) (hp.mem_iff.mp hcpw) with hr | hpool
  · exact required_no_ambiguous hexcl rup rlo rdi rsy c hr
  · exact pool_no_ambiguous hexcl c hpool

end PG

namespace PG

/-- Claim C4: `generate` with every category disabled raises the
`ValueError` of line 86 (the ConfigError of the spec), for every length,
`exclude_ambiguous` setting and oracle; the error value is returned, never
swallowed. -/
theorem generate_no_categories_fails (L : Int) (excl : Bool) (rup rlo rdi rsy : Nat)
    (fill : Nat → Nat) (shuffle : List Char → List Char) :
    generate ⟨L, false, false, false, false, excl⟩ rup rlo rdi rsy fill shuffle
      = Except.error "At least one character type must be selected" := rfl

/-- Claim C5: `check_strength` is total and deterministic, its score equals
`min(rawSum, 5)` where `rawSum` counts the seven passing tests, and the
score is at most 5 (it is a `Nat`, hence at least 0). -/
theorem check_strength_spec (p : List Char) :
    (check_strength p).fst = min (rawSum p) 5 ∧ (check_strength p).fst ≤ 5
      ∧ ∀ q, p = q → check_strength p = check_strength q := by
  have h1 : (check_strength p).fst = min (rawSum p) 5 :=
    score_chain (p.length ≥ 8) (p.length ≥ 12) (p.length ≥ 16)
      (p.any (fun c => c.isUpper) = true) (p.any (fun c => c.isLower) = true)
      (p.any (fun c => c.isDigit) = true) (p.any (fun c => symbols.contains c) = true)
  exact ⟨h1, h1 ▸ Nat.min_le_right _ _, fun q hq => hq ▸ rfl⟩

/-- Witness for C5 at the concrete input "abcdefgh". -/
theorem check_strength_spec_witness :
    check_strength ("abcdefgh".toList) = check_strength ("abcdefgh".toList) :=
  (check_strength_spec ("abcdefgh".toList)).2.2 ("abcdefgh".toList) rfl

/-- Claim C6 as stated is false: for "abcdefgh" the feedback strings are
"Add uppercase letters", "Add numbers" and "Add symbols"; none of the exact
strings "add uppercase letters", "add digits", "add symbols" occurs. -/
theorem check_strength_abcdefgh_counterexample :
    ¬ ((check_strength ("abcdefgh".toList)).fst = 2
      ∧ "add uppercase letters" ∈ (check_strength ("abcdefgh".toList)).snd
      ∧ "add digits" ∈ (check_strength ("abcdefgh".toList)).snd
      ∧ "add symbols" ∈ (check_strength ("abcdefgh".toList)).snd) := by
  decide

/-- Claim C6 amended: `check_strength "abcdefgh"` scores 2 and its feedback
contains exactly the strings "Add uppercase letters", "Add numbers" and
"Add symbols". -/
theorem check_strength_abcdefgh_amended :
    (check_strength ("abcdefgh".toList)).fst = 2
      ∧ (check_strength ("abcdefgh".toList)).snd
          = ["Add uppercase letters", "Add numbers", "Add symbols"] := by
  decide

/-- Claim C7: "Ab3!xyz9QQ22" has length 12 and scores 5. -/
theorem check_strength_strong_example :
    ("Ab3!xyz9QQ22".toList).length = 12
      ∧ (check_strength ("Ab3!xyz9QQ22".toList)).fst = 5 := by
  decide

/-- Claim C8: `generate_memorable` selects `words` entries from the static
word list (with replacement), optionally capitalizes each, joins them with
the separator and optionally appends a decimal below 100; instantiating at
`(4, "-", true, true)` gives four capitalized list words joined by "-"
followed by a number in [0, 100). -/
theorem generate_memorable_spec (words : Nat) (separator : String) (cap addn : Bool)
    (wr : Nat → Nat) (nr : Nat) :
    ∃ ws : List String, ws.length = words ∧ (∀ w, w ∈ ws → w ∈ word_list)
      ∧ nr % 100 < 100
      ∧ generate_memorable words separator cap addn wr nr =
          (let joined := String.intercalate separator (if cap then ws.map pyCapitalize else ws)
           if addn then joined ++ toString (nr % 100) else joined) := by
  refine ⟨(List.range words).map (fun i => pickWord (wr i) word_list),
    by simp, ?_, Nat.mod_lt _ (by decide), ?_⟩
  · intro w hw
    simp only [List.mem_map] at hw
    obtain ⟨i, _, hi⟩ := hw
    subst hi
    exact pickWord_mem _ _ (by decide)
  · simp [generate_memorable]

/-- Claim C1: whenever some category is enabled and `generate` returns a
password, its length is `max(requested length, number of enabled categories)`,
for every oracle and every shuffle that permutes its input. -/
theorem generate_length_spec (cfg : Config) (rup rlo rdi rsy : Nat) (fill : Nat → Nat)
    (shuffle : List Char → List Char) (pw : List Char)
    (hperm : ∀ l, List.Perm (shuffle l) l) (henabled : someEnabled cfg)
    (hok : generate cfg rup rlo rdi rsy fill shuffle = Except.ok pw) :
    lengthInvariant cfg pw :=
  length_core hperm henabled hok

/-- Witness for C1: the default config, the all-zero oracle, the identity
shuffle. -/
theorem generate_length_spec_witness : lengthInvariant cfg0 pw0 :=
  generate_length_spec cfg0 0 0 0 0 (fun _ => 0) id pw0
    (fun l => List.Perm.refl l) (Or.inl rfl) rfl

/-- Claim C2: whenever some category is enabled and `generate` returns a
password, the password contains at least one character from each enabled
effective set of each enabled category, regardless of the requested length. -/
theorem generate_inclusion_spec (cfg : Config) (rup rlo rdi rsy : Nat) (fill : Nat → Nat)
    (shuffle : List Char → List Char) (pw : List Char)
    (hperm : ∀ l, List.Perm (shuffle l) l) (henabled : someEnabled cfg)
    (hok : generate cfg rup rlo rdi rsy fill shuffle = Except.ok pw) :
    inclusionInvariant cfg pw :=
  inclusion_core hperm henabled hok

/-- Witness for C2. -/
theorem generate_inclusion_spec_witness : inclusionInvariant cfg0 pw0 :=
  generate_inclusion_spec cfg0 0 0 0 0 (fun _ => 0) id pw0
    (fun l => List.Perm.refl l) (Or.inl rfl) rfl

/-- Claim C3: with `exclude_ambiguous` on, no character of a generated
password is in `il1Lo0O`; the symbol draws and the filler draws contribute
no ambiguous character either (`string.punctuation` contains none). -/
theorem generate_ambiguous_spec (cfg : Config) (rup rlo rdi rsy : Nat) (fill : Nat → Nat)
    (shuffle : List Char → List Char) (pw : List Char)
    (hperm : ∀ l, List.Perm (shuffle l) l) (henabled : someEnabled cfg)
    (hexcl : cfg.exclude_ambiguous = true)
    (hok : generate cfg rup rlo rdi rsy fill shuffle = Except.ok pw) :
    hasNoAmbiguous pw :=
  ambiguous_core hperm henabled hexcl hok

/-- Witness for C3. -/
theorem generate_ambiguous_spec_witness : hasNoAmbiguous pw0 :=
  generate_ambiguous_spec cfg0 0 0 0 0 (fun _ => 0) id pw0
    (fun l => List.Perm.refl l) (Or.inl rfl) rfl rfl

/-- Claim C9: `generate_multiple` returns exactly `count` results, and each
one is a successful `generate` result satisfying the length and inclusion
invariants. -/
theorem generate_multiple_spec (count : Nat) (cfg : Config) (rup rlo rdi rsy : Nat → Nat)
    (fill : Nat → Nat → Nat) (shuffle : Nat → List Char → List Char)
    (hperm : ∀ i l, List.Perm (shuffle i l) l) (henabled : someEnabled cfg) :
    (generate_multiple count cfg rup rlo rdi rsy fill shuffle).length = count
      ∧ allInvariants cfg (generate_multiple count cfg rup rlo rdi rsy fill shuffle) := by
  have hlen : (generate_multiple count cfg rup rlo rdi rsy fill shuffle).length = count := by
    simp [generate_multiple]
  refine ⟨hlen, ?_⟩
  intro i hi
  rw [hlen] at hi
  have hget : (generate_multiple count cfg rup rlo rdi rsy fill shuffle).getD i
        (Except.error "")
      = generate cfg (rup i) (rlo i) (rdi i) (rsy i) (fill i) (shuffle i) := by
    simp [generate_multiple, List.getD_eq_getElem?_getD, List.getElem?_map,
      List.getElem?_range, hi]
  refine ⟨shuffle i (password_list cfg (rup i) (rlo i) (rdi i) (rsy i) (fill i)),
    ?_, ?_, ?_⟩
  · rw [hget]
    exact generate_ok henabled _ _ _ _ _ _
  · exact length_core (hperm i) henabled (generate_ok henabled _ _ _ _ _ _)
  · exact inclusion_core (hperm i) henabled (generate_ok henabled _ _ _ _ _ _)

/-- Witness for C9: two passwords from the default config. -/
theorem generate_multiple_spec_witness :
    (generate_multiple 2 cfg0 (fun _ => 0) (fun _ => 0) (fun _ => 0) (fun _ => 0)
        (fun _ _ => 0) (fun _ l => l)).length = 2
      ∧ allInvariants cfg0 (generate_multiple 2 cfg0 (fun _ => 0) (fun _ => 0)
        (fun _ => 0) (fun _ => 0) (fun _ _ => 0) (fun _ l => l)) :=
  generate_multiple_spec 2 cfg0 (fun _ => 0) (fun _ => 0) (fun _ => 0) (fun _ => 0)
    (fun _ _ => 0) (fun _ l => l) (fun _ l => List.Perm.refl l) (Or.inl rfl)

/-- Claim C10: with a non-positive requested length and some enabled
category, `generate` still succeeds and the length of the password is the number
of enabled categories (the clamp of lines 89–90 happens internally). -/
theorem generate_nonpositive_length_spec (cfg : Config) (rup rlo rdi rsy : Nat)
    (fill : Nat → Nat) (shuffle : List Char → List Char)
    (hperm : ∀ l, List.Perm (shuffle l) l)
    (hlen : cfg.length ≤ 0) (henabled : someEnabled cfg) :
    (generate cfg rup rlo rdi rsy fill shuffle).toOption.map List.length
      = some (numEnabled cfg) := by
  have hok := generate_ok henabled rup rlo rdi rsy fill shuffle
  have hinv := length_core hperm henabled hok
  rw [lengthInvariant] at hinv
  rw [max_eq_right (le_trans hlen (Int.ofNat_nonneg _))] at hinv
  have h2 : (shuffle (password_list cfg rup rlo rdi rsy fill)).length = numEnabled cfg := by
    exact_mod_cast hinv
  rw [hok]
  simp [Except.toOption, h2]

/-- Witness for C10: requested length −3 with all categories enabled gives a
4-character password. -/
theorem generate_nonpositive_length_spec_witness :
    (generate cfg10 0 0 0 0 (fun _ => 0) id).toOption.map List.length
      = some (numEnabled cfg10) :=
  generate_nonpositive_length_spec cfg10 0 0 0 0 (fun _ => 0) id
    (fun l => List.Perm.refl l) (by decide) (Or.inl rfl)

end PG
